import Mathlib

/-!
Shallow embedding of the Jonker–Volgenant sparse linear assignment solver
(`src/src/lap.cpp`) of the daestruct repository, together with theorems
settling the specification claims about it.

The sparse cost matrix (`sigma_matrix`) is an external collaborator of the
core (its header is not part of the verified sources), so its interface is
modelled from the spec: stored `(column, cost)` entries per row in ascending
column order, absent entries implicitly of infinite (`BIG`) cost.
-/

/-- Modelled from the spec: the `BIG` infinity sentinel, a constant strictly
greater than any feasible total cost (defined in the external
`sigma_matrix.hpp`). -/
def BIG : Int := 100000000

/-- Modelled from the spec: the sparse cost matrix external collaborator.
`rows.getD i []` is the list of stored `(column, cost)` pairs of row `i`,
in ascending column order; absent entries are implicitly `BIG`. -/
structure SigmaMatrix where
  dimension : Nat
  rows : List (List (Nat × Int))
deriving Repr, DecidableEq

/-- Modelled from the spec: row-wise iteration (`findRow`): the stored
entries of row `i` in ascending column order. -/
def SigmaMatrix.findRow (m : SigmaMatrix) (i : Nat) : List (Nat × Int) :=
  m.rows.getD i []

/-- Modelled from the spec: direct cost lookup `cost(i, j)`; stored value,
or `BIG` for an absent entry. -/
def SigmaMatrix.cost (m : SigmaMatrix) (i j : Nat) : Int :=
  match (m.findRow i).find? (fun e => e.1 = j) with
  | some e => e.2
  | none => BIG

/-- Modelled from the spec: `smallest_cost_row(col)` returns the row
achieving minimum `cost(row, col)` over all rows (first such row on ties). -/
def SigmaMatrix.smallest_cost_row (m : SigmaMatrix) (j : Nat) : Nat :=
  (List.range m.dimension).foldl
    (fun best i => if m.cost i j < m.cost best j then i else best) 0

/-- Whether `(i, j)` is a stored entry of the sparse matrix. -/
def SigmaMatrix.stored (m : SigmaMatrix) (i j : Nat) : Bool :=
  ((m.findRow i).find? (fun e => e.1 = j)).isSome

/-- The `solution` record returned by `lap` and `delta_lap`
(`src/src/lap.hpp`). -/
structure solution where
  cost : Int
  rowsol : List Int
  colsol : List Int
  u : List Int
  v : List Int
deriving Repr, DecidableEq

/-! ## The priority queue (boost 4-ary heap with an external key map)

`lap.cpp` uses `boost::heap::d_ary_heap` of arity 4 whose comparator reads
the `dist` vector of the augmentation scratch data.  We model it as an
implicit 4-ary min-heap (w.r.t. `dist`) stored in a list; `push` appends and
sifts up, `pop` moves the last element to the root and sifts down, `update`
re-sifts the entry of a given column (the boost handle of column `j` is
modelled by looking up `j`'s position). -/

/-- Key of heap element `j` under the external distance map. -/
def hKey (dist : List Int) (j : Nat) : Int := dist.getD j 0

/-- Swap the elements at positions `a` and `b`. -/
def lswap (l : List Nat) (a b : Nat) : List Nat :=
  (l.set a (l.getD b 0)).set b (l.getD a 0)

/-- Sift the element at position `p` up towards the root, swapping with its
parent (at `(p-1)/4`) while its key is strictly smaller; `fuel` bounds the
depth (callers pass the heap size, which always suffices). -/
def siftUp (dist : List Int) : Nat → List Nat → Nat → List Nat
  | 0, a, _ => a
  | fuel + 1, a, p =>
    if p = 0 then a
    else
      let q := (p - 1) / 4
      if hKey dist (a.getD p 0) < hKey dist (a.getD q 0) then
        siftUp dist fuel (lswap a q p) q
      else a

/-- Index of the first child of `p` holding the minimal key among `p`'s
children (boost's `max_element` over the children picks the first one no
later child strictly beats). -/
def minChild (dist : List Int) (a : List Nat) (p : Nat) : Option Nat :=
  (((List.range 4).map (fun t => 4 * p + 1 + t)).filter (· < a.length)).foldl
    (fun acc c =>
      match acc with
      | none => some c
      | some b =>
        if hKey dist (a.getD c 0) < hKey dist (a.getD b 0) then some c else acc)
    none

/-- Sift the element at position `p` down, swapping with its minimal child
while that child's key is strictly smaller; `fuel` bounds the depth. -/
def siftDown (dist : List Int) : Nat → List Nat → Nat → List Nat
  | 0, a, _ => a
  | fuel + 1, a, p =>
    match minChild dist a p with
    | none => a
    | some c =>
      if hKey dist (a.getD c 0) < hKey dist (a.getD p 0) then
        siftDown dist fuel (lswap a p c) c
      else a

/-- The priority queue of `lap.cpp`: column indices ordered by `dist`. -/
structure Heap where
  arr : List Nat
deriving Repr, DecidableEq

/-- `pq.push(j)`: append and sift up. -/
def Heap.push (dist : List Int) (h : Heap) (j : Nat) : Heap :=
  ⟨siftUp dist (h.arr.length + 1) (h.arr ++ [j]) h.arr.length⟩

/-- `pq.top()`: the root of the heap. -/
def Heap.top (h : Heap) : Nat := h.arr.headD 0

/-- `pq.empty()`. -/
def Heap.isEmpty (h : Heap) : Bool := h.arr.isEmpty

/-- `pq.pop()`: move the last element to the root and sift down. -/
def Heap.pop (dist : List Int) (h : Heap) : Heap :=
  match h.arr with
  | [] => ⟨[]⟩
  | [_] => ⟨[]⟩
  | _ =>
    ⟨siftDown dist h.arr.length ((h.arr.set 0 (h.arr.getLastD 0)).dropLast) 0⟩

/-- `pq.update(handle)`: re-establish the heap position of column `j` after
its key decreased, as the boost mutable heap does: at the root sift down,
otherwise sift up when the parent's key is larger, else sift down. -/
def Heap.update (dist : List Int) (h : Heap) (j : Nat) : Heap :=
  let i := h.arr.indexOf j
  if i = 0 then ⟨siftDown dist h.arr.length h.arr 0⟩
  else
    if hKey dist (h.arr.getD i 0) < hKey dist (h.arr.getD ((i - 1) / 4) 0) then
      ⟨siftUp dist (h.arr.length + 1) h.arr i⟩
    else ⟨siftDown dist h.arr.length h.arr i⟩

/-! ## Augmentation scratch data (`struct augmentation_data`) -/

/-- The per-invocation scratch data of the augmenting-path search
(`struct augmentation_data` in `lap.cpp`).  The boost handle array is
subsumed by the heap model (handles are looked up by column id). -/
structure AugmentationData where
  in_todo : List Bool
  ready : List Nat
  is_ready : List Bool
  prev : List Nat
  scan : List Nat
  dist : List Int
  pq : Heap
deriving Repr, DecidableEq

/-- The `augmentation_data(dim)` constructor: all-false flags, zeroed
`prev`/`dist` (C++ vectors are value-initialized), empty lists and queue. -/
def mkAugmentationData (dim : Nat) : AugmentationData :=
  { in_todo := List.replicate dim false
    ready := []
    is_ready := List.replicate dim false
    prev := List.replicate dim 0
    scan := []
    dist := List.replicate dim 0
    pq := ⟨[]⟩ }

/-- The lazy-deletion loop of `augment` (`lap.cpp` lines 122–123): while the
queue is non-empty and its top column is no longer in the todo set, pop it.
`fuel` is called with the queue size, which bounds the number of pops. -/
def stalePop (in_todo : List Bool) (dist : List Int) : Nat → Heap → Heap
  | 0, h => h
  | fuel + 1, h =>
    if h.isEmpty then h
    else if in_todo.getD h.top false then h
    else stalePop in_todo dist fuel (h.pop dist)

/-- `augmentation_data::reset(start)` (`lap.cpp` lines 91–99): fill
`is_ready` and `in_todo` with `false`, fill `prev` with `start`, clear the
queue and the `ready` and `scan` lists.  `dist` (and the handle storage) are
not touched. -/
def AugmentationData.reset (d : AugmentationData) (start : Nat) : AugmentationData :=
  { d with
    is_ready := List.replicate d.is_ready.length false
    in_todo := List.replicate d.in_todo.length false
    prev := List.replicate d.prev.length start
    pq := ⟨[]⟩
    ready := []
    scan := [] }

/-! ## The augmenting-path search (`augment`, `lap.cpp` lines 102–196) -/

/-- The batch-collection loop of `augment` (`lap.cpp` lines 126–137): while
the queue top's label equals `mn`, move it to `scan` (or stop with it as the
end of the path if its column is unassigned).  A stale top at label `mn`
makes the C++ loop spin; running out of `fuel` models that divergence by
returning `none`. -/
def batchCollect (colsol : List Int) (mn : Int) :
    Nat → AugmentationData → Option (AugmentationData × Option Nat)
  | 0, _ => none
  | fuel + 1, d =>
    if d.pq.isEmpty then some (d, none)
    else
      let j := d.pq.top
      if d.dist.getD j 0 = mn then
        if d.in_todo.getD j false then
          if colsol.getD j 0 < 0 then some (d, some j)
          else
            batchCollect colsol mn fuel
              { d with
                scan := d.scan ++ [j]
                in_todo := d.in_todo.set j false
                pq := d.pq.pop d.dist }
        else batchCollect colsol mn fuel d
      else some (d, none)

/-- The row-expansion loop of `augment` (`lap.cpp` lines 149–176): relax
every stored entry of row `i` that is not finalized; a zero reduced cost to
an unassigned column ends the search (`goto augment`), a zero reduced cost
to an assigned column finalizes it immediately onto `scan`, and a positive
one inserts or decrease-keys the queue. -/
def expandRow (v colsol : List Int) (i : Nat) (mn h : Int) :
    List (Nat × Int) → AugmentationData → AugmentationData × Option Nat
  | [], d => (d, none)
  | (j, c) :: rest, d =>
    if d.is_ready.getD j false then expandRow v colsol i mn h rest d
    else
      let c_red := c - v.getD j 0 - h
      if d.in_todo.getD j false = false ∨ mn + c_red < d.dist.getD j 0 then
        let d1 := { d with dist := d.dist.set j (mn + c_red), prev := d.prev.set j i }
        if c_red = 0 then
          if colsol.getD j 0 < 0 then (d1, some j)
          else
            expandRow v colsol i mn h rest
              { d1 with scan := d1.scan ++ [j], in_todo := d1.in_todo.set j false }
        else
          if d1.in_todo.getD j false then
            expandRow v colsol i mn h rest { d1 with pq := d1.pq.update d1.dist j }
          else
            expandRow v colsol i mn h rest
              { d1 with pq := d1.pq.push d1.dist j, in_todo := d1.in_todo.set j true }
      else expandRow v colsol i mn h rest d

/-- The main do-loop of `augment` (`lap.cpp` lines 119–178): if `scan` is
empty, lazily pop stale queue entries, read the new minimum label and
batch-collect the columns at it; then take the last column off `scan`,
finalize it onto `ready`, and expand the row assigned to it.  Returns the
scratch data, the final minimum label and the end-of-path column; `none`
models divergence (or reading an empty queue / empty scan, which is
undefined behaviour in the C++). -/
def augmentLoop (m : SigmaMatrix) (v colsol : List Int) :
    Nat → AugmentationData → Int → Option (AugmentationData × Int × Nat)
  | 0, _, _ => none
  | fuel + 1, d, mn =>
    let batched :=
      if d.scan.isEmpty then
        let pq1 := stalePop d.in_todo d.dist (d.pq.arr.length + 1) d.pq
        if pq1.isEmpty then none
        else
          let mn1 := d.dist.getD pq1.top 0
          batchCollect colsol mn1 (fuel + 1) { d with pq := pq1 } |>.map (mn1, ·)
      else some (mn, (d, none))
    match batched with
    | none => none
    | some (mn1, d1, some e) => some (d1, mn1, e)
    | some (mn1, d1, none) =>
      match d1.scan.getLast? with
      | none => none
      | some j1 =>
        let i := (colsol.getD j1 0).toNat
        let d2 :=
          { d1 with
            scan := d1.scan.dropLast
            ready := d1.ready ++ [j1]
            is_ready := d1.is_ready.set j1 true }
        let h := m.cost i j1 - v.getD j1 0
        match expandRow v colsol i mn1 h (m.findRow i) d2 with
        | (d3, some e) => some (d3, mn1, e)
        | (d3, none) => augmentLoop m v colsol fuel d3 mn1

/-- The column-price update of `augment` (`lap.cpp` lines 182–184): for each
column on the `ready` list, in order and with multiplicity,
`v[j] += dist[j] - min`. -/
def updateV (ready : List Nat) (dist : List Int) (mn : Int) (v : List Int) : List Int :=
  ready.foldl (fun v j => v.set j (v.getD j 0 + dist.getD j 0 - mn)) v

/-- The augmenting flip of `augment` (`lap.cpp` lines 187–195): walk back
from the end-of-path column along `prev`, alternately reassigning
`colsol`/`rowsol`, until the walk returns to `start`. -/
def flipPath (prev : List Nat) (start : Nat) :
    Nat → Nat → List Int → List Int → Option (List Int × List Int)
  | 0, _, _, _ => none
  | fuel + 1, endofpath, rowsol, colsol =>
    let i := prev.getD endofpath 0
    let colsol1 := colsol.set endofpath (Int.ofNat i)
    let e1 := rowsol.getD i 0
    let rowsol1 := rowsol.set i (Int.ofNat endofpath)
    if i = start then some (rowsol1, colsol1)
    else flipPath prev start fuel e1.toNat rowsol1 colsol1

/-- The seeding prologue of `augment` (`lap.cpp` lines 103–114): reset the
scratch data, then set the labels of the start row's stored columns and
push them onto the queue (two passes: labels first, then pushes). -/
def augmentSeed (m : SigmaMatrix) (d : AugmentationData) (v : List Int)
    (start : Nat) : AugmentationData :=
  let d0 := d.reset start
  let entries := m.findRow start
  let dist1 := entries.foldl (fun ds e => ds.set e.1 (e.2 - v.getD e.1 0)) d0.dist
  entries.foldl
    (fun d e =>
      { d with pq := d.pq.push d.dist e.1, in_todo := d.in_todo.set e.1 true })
    { d0 with dist := dist1 }

/-- `augment` (`lap.cpp` lines 102–196): reset and seed the scratch data,
run the search loop, update the column prices over `ready`, and flip the
assignment along the found path. -/
def augment (m : SigmaMatrix) (fuel : Nat) (d : AugmentationData)
    (v rowsol colsol : List Int) (start : Nat) :
    Option (AugmentationData × List Int × List Int × List Int) :=
  match augmentLoop m v colsol fuel (augmentSeed m d v start) 0 with
  | none => none
  | some (d2, mn, endofpath) =>
    let v1 := updateV d2.ready d2.dist mn v
    match flipPath d2.prev start fuel endofpath rowsol colsol with
    | none => none
    | some (rowsol1, colsol1) => some (d2, v1, rowsol1, colsol1)

/-! ## Shared finalization and the delta solver (`delta_lap`) -/

/-- The final block shared by `lap` and `delta_lap` (`lap.cpp` lines
250–257 and 410–416): `u[i] = cost(i, rowsol[i]) - v[rowsol[i]]` for every
row, and the total cost is the sum of the matched entries. -/
def finishSolution (m : SigmaMatrix) (v rowsol colsol : List Int) : solution :=
  { cost :=
      (List.range rowsol.length).foldl
        (fun acc i => acc + m.cost i (rowsol.getD i 0).toNat) 0
    rowsol := rowsol
    colsol := colsol
    u :=
      (List.range rowsol.length).map
        (fun i =>
          m.cost i (rowsol.getD i 0).toNat - v.getD (rowsol.getD i 0).toNat 0)
    v := v }

/-- The column-dual initialization of `delta_lap` (`lap.cpp` lines
221–230): an assigned column keeps its supplied dual; an unassigned one is
recomputed as the fold of `min` over `cost(i2, j) - u[i2]` for all rows
`i2`, started at `BIG`. -/
def deltaInitV (m : SigmaMatrix) (u v colsol : List Int) : List Int :=
  (List.range m.dimension).map
    (fun j =>
      if 0 ≤ colsol.getD j 0 then v.getD j 0
      else
        (List.range m.dimension).foldl
          (fun a i2 => min a (m.cost i2 j - u.getD i2 0)) BIG)

/-- Run `augment` once per listed free row, threading the scratch data, the
column duals and the assignment (`lap.cpp` lines 244–248 and 404–408). -/
def augmentAll (m : SigmaMatrix) (fuel : Nat) (freeRows : List Nat)
    (d : AugmentationData) (v rowsol colsol : List Int) :
    Option (List Int × List Int × List Int) :=
  freeRows.foldl
    (fun acc i =>
      match acc with
      | none => none
      | some (d, v, rowsol, colsol) => augment m fuel d v rowsol colsol i)
    (some (d, v, rowsol, colsol))
  |>.map (fun r => (r.2.1, r.2.2.1, r.2.2.2))

/-- `delta_lap` (`lap.cpp` lines 208–273): recompute the duals of
unassigned columns, collect the rows unassigned in the supplied `rowsol`,
augment once per free row, and finalize `u` and the total cost. -/
def delta_lap (m : SigmaMatrix) (fuel : Nat)
    (u v rowsol colsol : List Int) : Option solution :=
  let v1 := deltaInitV m u v colsol
  let freeRows := (List.range rowsol.length).filter (fun i => rowsol.getD i 0 < 0)
  match augmentAll m fuel freeRows (mkAugmentationData m.dimension) v1 rowsol colsol with
  | none => none
  | some (v2, rowsol2, colsol2) => some (finishSolution m v2 rowsol2 colsol2)

/-! ## The full solver (`lap`, `lap.cpp` lines 275–437) -/

/-- Phase 1, column reduction (`lap.cpp` lines 290–305): for each column in
descending index order, set its dual to the minimum cost in that column and
assign the achieving row to it if this is that row's first claim.
Returns `(v, rowsol, colsol, claimed)`; `rowsol`/`colsol` start
value-initialized to `0` as the C++ vectors do. -/
def colReduction (m : SigmaMatrix) : List Int × List Int × List Int × List Nat :=
  (List.range m.dimension).reverse.foldl
    (fun st j =>
      let (v, rowsol, colsol, claimed) := st
      let imin := m.smallest_cost_row j
      let v1 := v.set j (m.cost imin j)
      let claimed1 := claimed.set imin (claimed.getD imin 0 + 1)
      if claimed1.getD imin 0 = 1 then
        (v1, rowsol.set imin (Int.ofNat j), colsol.set j (Int.ofNat imin), claimed1)
      else (v1, rowsol, colsol.set j (-1), claimed1))
    (List.replicate m.dimension 0, List.replicate m.dimension 0,
      List.replicate m.dimension 0, List.replicate m.dimension 0)

/-- Phase 2, reduction transfer (`lap.cpp` lines 307–326): rows claimed
zero times join the free list; for a row claimed exactly once, its column's
dual is lowered by the minimum reduced cost over the row's other stored
entries (folded from `BIG`).  Returns `(freeRows, v)`. -/
def reductionTransfer (m : SigmaMatrix) (v rowsol : List Int)
    (claimed : List Nat) : List Nat × List Int :=
  (List.range m.dimension).foldl
    (fun st i =>
      let (freeRows, v) := st
      if claimed.getD i 0 = 0 then (freeRows ++ [i], v)
      else if claimed.getD i 0 = 1 then
        let j1 := (rowsol.getD i 0).toNat
        let mn :=
          (m.findRow i).foldl
            (fun mn e =>
              if e.1 ≠ j1 then
                if e.2 - v.getD e.1 0 < mn then e.2 - v.getD e.1 0 else mn
              else mn)
            BIG
        (freeRows, v.set j1 (v.getD j1 0 - mn))
      else (freeRows, v))
    ([], v)

/-- The minimum/subminimum scan of phase 3 (`lap.cpp` lines 345–368): over
the stored entries of a row, find the smallest and second-smallest reduced
costs `umin ≤ usubmin` and their columns `j1`, `j2`.  `usubmin` starts at
`BIG` and `j2` keeps its value from the previous row when never set (the
C++ variable persists across loop iterations). -/
def minPair (entries : List (Nat × Int)) (v : List Int) (j20 : Nat) :
    Option (Int × Nat × Int × Nat) :=
  match entries with
  | [] => none
  | (jh, ch) :: rest =>
    some <| rest.foldl
      (fun st e =>
        let (umin, j1, usubmin, j2) := st
        let h := e.2 - v.getD e.1 0
        if h < usubmin then
          if h ≥ umin then (umin, j1, h, e.1)
          else (h, e.1, umin, j1)
        else (umin, j1, usubmin, j2))
      (ch - v.getD jh 0, jh, BIG, j20)

/-- Result of processing one free row in phase 3 (`lap.cpp` lines
341–396): the updated state, the row `i0` freed by the reassignment (if
any) paired with whether it is reprocessed immediately (`free[--k] = i0`)
or deferred to the next pass (`free[numfree++] = i0`), and the value the
persistent `j2` variable holds afterwards. -/
structure ArrStep where
  v : List Int
  rowsol : List Int
  colsol : List Int
  freed : Option (Nat × Bool)
  j2out : Nat
deriving Repr, DecidableEq

/-- One free row of phase 3, augmenting row reduction (`lap.cpp` lines
341–396): find `umin`, `usubmin`, `j1`, `j2`; if `umin < usubmin` lower
`v[j1]` by the difference, otherwise when `j1` is assigned swap `j1` to
`j2`; reassign the row to `j1`, and report any row this frees. -/
def arrRowStep (m : SigmaMatrix) (i : Nat) (v rowsol colsol : List Int)
    (j20 : Nat) : Option ArrStep :=
  match minPair (m.findRow i) v j20 with
  | none => none
  | some (umin, j1, usubmin, j2) =>
    if umin < usubmin then
      let v1 := v.set j1 (v.getD j1 0 - (usubmin - umin))
      let i0 := colsol.getD j1 0
      some
        { v := v1
          rowsol := rowsol.set i (Int.ofNat j1)
          colsol := colsol.set j1 (Int.ofNat i)
          freed := if 0 ≤ i0 then some (i0.toNat, true) else none
          j2out := j2 }
    else
      let i0 := colsol.getD j1 0
      let j1' := if 0 ≤ i0 then j2 else j1
      let i0' := if 0 ≤ i0 then colsol.getD j2 0 else i0
      some
        { v := v
          rowsol := rowsol.set i (Int.ofNat j1')
          colsol := colsol.set j1' (Int.ofNat i)
          freed := if 0 ≤ i0' then some (i0'.toNat, false) else none
          j2out := j2 }

/-- One pass of phase 3 over the free-row list (`lap.cpp` lines 336–397):
process the pending rows in order; a row freed under `umin < usubmin` is
re-enqueued at the front for immediate reprocessing, a row freed otherwise
is appended to the next pass's free list. -/
def arrPass (m : SigmaMatrix) :
    Nat → List Nat → List Nat → List Int → List Int → List Int → Nat →
    Option (List Nat × List Int × List Int × List Int × Nat)
  | 0, _, _, _, _, _, _ => none
  | _ + 1, [], nextFree, v, rowsol, colsol, j20 =>
    some (nextFree, v, rowsol, colsol, j20)
  | fuel + 1, i :: pending, nextFree, v, rowsol, colsol, j20 =>
    match arrRowStep m i v rowsol colsol j20 with
    | none => none
    | some st =>
      match st.freed with
      | some (i0, true) =>
        arrPass m fuel (i0 :: pending) nextFree st.v st.rowsol st.colsol st.j2out
      | some (i0, false) =>
        arrPass m fuel pending (nextFree ++ [i0]) st.v st.rowsol st.colsol st.j2out
      | none => arrPass m fuel pending nextFree st.v st.rowsol st.colsol st.j2out

/-- `lap` (`lap.cpp` lines 275–437): column reduction, reduction transfer,
two passes of augmenting row reduction, one `augment` per remaining free
row, then the final `u`/cost computation. -/
def lap (m : SigmaMatrix) (fuel : Nat) : Option solution :=
  let (v, rowsol, colsol, claimed) := colReduction m
  let (free1, v1) := reductionTransfer m v rowsol claimed
  match arrPass m fuel free1 [] v1 rowsol colsol 0 with
  | none => none
  | some (free2, v2, rowsol2, colsol2, j2a) =>
    match arrPass m fuel free2 [] v2 rowsol2 colsol2 j2a with
    | none => none
    | some (free3, v3, rowsol3, colsol3, _) =>
      match augmentAll m fuel free3 (mkAugmentationData m.dimension) v3 rowsol3 colsol3 with
      | none => none
      | some (v4, rowsol4, colsol4) => some (finishSolution m v4 rowsol4 colsol4)

/-! ## Decidable checkers for the spec's solution invariants -/

/-- Dual feasibility over stored entries: `cost(i,j) - u[i] - v[j] >= 0`
for every stored `(i,j)`. -/
def dualFeasibleB (m : SigmaMatrix) (u v : List Int) : Bool :=
  (List.range m.dimension).all (fun i =>
    (m.findRow i).all (fun e => 0 ≤ e.2 - u.getD i 0 - v.getD e.1 0))

/-- Complementary slackness over matched pairs:
`cost(i, rowsol[i]) - u[i] - v[rowsol[i]] == 0` for every assigned row. -/
def matchedTightB (m : SigmaMatrix) (u v rowsol : List Int) : Bool :=
  (List.range rowsol.length).all (fun i =>
    if 0 ≤ rowsol.getD i 0 then
      m.cost i (rowsol.getD i 0).toNat - u.getD i 0
        - v.getD (rowsol.getD i 0).toNat 0 = 0
    else true)

/-- `rowsol` and `colsol` are mutually inverse bijections on `0..dim-1`. -/
def bijectionB (dim : Nat) (rowsol colsol : List Int) : Bool :=
  rowsol.length = dim && colsol.length = dim &&
  (List.range dim).all (fun i =>
    0 ≤ rowsol.getD i 0 && rowsol.getD i 0 < dim &&
    colsol.getD (rowsol.getD i 0).toNat 0 = Int.ofNat i) &&
  (List.range dim).all (fun j =>
    0 ≤ colsol.getD j 0 && colsol.getD j 0 < dim &&
    rowsol.getD (colsol.getD j 0).toNat 0 = Int.ofNat j)

/-- Every row's matched entry is a stored (finite-cost) entry. -/
def matchingStoredB (m : SigmaMatrix) (rowsol : List Int) : Bool :=
  (List.range m.dimension).all (fun i => m.stored i (rowsol.getD i 0).toNat)

/-! ## Concrete instances used by witnesses and counterexamples -/

/-- A 5×5 sparse instance on which `delta_lap` finalizes column 1 twice. -/
def deltaBugMatrix : SigmaMatrix :=
  { dimension := 5
    rows :=
      [[(0, 0)],
       [(0, 0), (1, 0), (2, 0)],
       [(1, 0), (3, 2)],
       [(1, 0), (2, 0)],
       [(3, 1), (4, 0)]] }

/-- Prior row duals supplied to `delta_lap` in the failing run. -/
def deltaBugU : List Int := [0, 0, 0, 0, 0]

/-- Prior column duals supplied to `delta_lap` in the failing run. -/
def deltaBugV : List Int := [0, 0, 0, 1, 0]

/-- Partial row assignment supplied to `delta_lap` (row 0 unassigned). -/
def deltaBugRowsol : List Int := [-1, 0, 1, 2, 4]

/-- Partial column assignment supplied to `delta_lap` (column 3 unassigned). -/
def deltaBugColsol : List Int := [1, 2, 3, -1, 4]

/-- The solution `delta_lap` returns on the failing run. -/
def deltaBugSol : solution :=
  { cost := 2
    rowsol := [0, 2, 3, 1, 4]
    colsol := [0, 3, 1, 2, 4]
    u := [1, 1, 1, 2, 0]
    v := [-1, -2, -1, 1, 0] }

/-- A 3×3 instance whose phase-3 processing of free row 2 meets
`umin == usubmin` with both the minimum column `j1 = 0` and the alternate
column `j2 = 1` already assigned. -/
def tieSwapMatrix : SigmaMatrix :=
  { dimension := 3
    rows := [[(0, 0), (2, 0)], [(1, 0), (2, 0)], [(0, 5), (1, 5)]] }

/-- A small matrix for exercising a full `lap` run in witnesses. -/
def detMatrix : SigmaMatrix :=
  { dimension := 2
    rows := [[(0, 1), (1, 2)], [(0, 2), (1, 1)]] }

/-- Brute-force enumeration of all assignments: the minimum, over every way
of assigning rows `i, i+1, ...` injectively to the columns of `remaining`,
of the total cost; `0` when no columns remain.  `fuel` equals the number of
rows still to assign. -/
def bruteMinFrom (m : SigmaMatrix) : Nat → Nat → List Nat → Int
  | 0, _, _ => 0
  | fuel + 1, i, remaining =>
    if remaining.isEmpty then 0
    else
      (remaining.map
        (fun j => m.cost i j + bruteMinFrom m fuel (i + 1) (remaining.erase j))).foldl
        min BIG

/-- The minimum assignment cost over all bijections rows → columns
(brute force), capped at `BIG`. -/
def bruteMin (m : SigmaMatrix) : Int :=
  bruteMinFrom m m.dimension 0 (List.range m.dimension)

/-- A 4×4 sparse instance on which `lap` resolves everything in the three
reduction phases (the augmenting-path search is never entered) yet returns
duals violating reduced-cost non-negativity on the stored entry `(3, 2)`. -/
def coldDualBugMatrix : SigmaMatrix :=
  { dimension := 4
    rows :=
      [[(0, 0)],
       [(1, 1), (3, 2)],
       [(0, 5), (2, 8)],
       [(0, 4), (2, 5), (3, 9)]] }

/-- The solution `lap` returns on `coldDualBugMatrix`. -/
def coldDualBugSol : solution :=
  { cost := 18
    rowsol := [0, 1, 2, 3]
    colsol := [0, 1, 2, 3]
    u := [100000000, 99999997, 100000005, 100000004]
    v := [-100000000, -99999996, -99999997, -99999995] }

/-- A 6×6 sparse instance on which a solved-then-partially-unassigned
solution is not re-optimized correctly by `delta_lap`. -/
def deltaMismatchMatrix : SigmaMatrix :=
  { dimension := 6
    rows :=
      [[(0, 24), (2, 51), (3, 11)],
       [(0, 4), (1, 54)],
       [(1, 59), (2, 35)],
       [(0, 48), (3, 10), (4, 32)],
       [(4, 6)],
       [(4, 4), (5, 54)]] }

/-- The optimal solution `lap` returns on `deltaMismatchMatrix`. -/
def deltaMismatchLapSol : solution :=
  { cost := 183
    rowsol := [0, 1, 2, 3, 4, 5]
    colsol := [0, 1, 2, 3, 4, 5]
    u := [21, 0, 5, 28, 100000000, 0]
    v := [3, 54, 30, -18, -99999994, 54] }

/-- A 6×6 instance on which the warm-start protocol makes the
augmenting-path search loop forever: `lap` solves it, rows 1 and 4 are then
unassigned, and the second `augment` of the resulting `delta_lap` run
re-pushes column 0 into the queue while an entry for it is still there;
the batch-collection loop then meets the surviving duplicate with
`dist == min` and `in_todo == false` and never advances. -/
def spinMatrix : SigmaMatrix :=
  { dimension := 6
    rows :=
      [[(0, 14), (1, 40), (5, 48)],
       [(0, 49), (1, 59), (5, 24)],
       [(0, 41), (2, 41), (4, 27)],
       [(3, 42)],
       [(0, 49), (3, 59), (4, 30)],
       [(2, 37), (5, 25)]] }

/-- The solution `lap` returns on `spinMatrix` (optimal, cost 211). -/
def spinLapSol : solution :=
  { cost := 211
    rowsol := [0, 1, 2, 3, 4, 5]
    colsol := [0, 1, 2, 3, 4, 5]
    u := [3, 22, 27, 100000000, 35, 23]
    v := [11, 37, 14, -99999958, -5, 2] }

/-- Column duals after the first (completed) augment of the warm-start run
on `spinMatrix`. -/
def spinV : List Int := [9, 0, 9, -99999958, -5, -3]

/-- Row assignment after the first augment of the warm-start run. -/
def spinRowsol : List Int := [0, 5, 4, 3, -1, 2]

/-- Column assignment after the first augment of the warm-start run. -/
def spinColsol : List Int := [0, -1, 5, 3, 2, 1]

/-- Scratch data handed to the second (non-terminating) augment call. -/
def spinD : AugmentationData :=
  { in_todo := [false, true, false, false, true, false]
    ready := [5, 2, 0]
    is_ready := [true, false, true, false, false, true]
    prev := [2, 1, 5, 1, 2, 1]
    scan := []
    dist := [25, 59, 22, 0, 27, 22]
    pq := ⟨[4, 1]⟩ }

/-- Search state after the first loop iteration of the diverging augment. -/
def spinS2 : AugmentationData :=
  { in_todo := [false, false, false, true, false, false]
    ready := [4]
    is_ready := [false, false, false, false, true, false]
    prev := [2, 4, 2, 4, 4, 4]
    scan := [0, 2]
    dist := [35, 59, 35, 100000017, 35, 22]
    pq := ⟨[0, 3]⟩ }

/-- Search state after the second loop iteration. -/
def spinS3 : AugmentationData :=
  { in_todo := [false, false, false, true, false, false]
    ready := [4, 2]
    is_ready := [false, false, true, false, true, false]
    prev := [2, 4, 2, 4, 4, 5]
    scan := [0, 5]
    dist := [35, 59, 35, 100000017, 35, 35]
    pq := ⟨[0, 3]⟩ }

/-- Search state after the third loop iteration; expanding row 1 re-relaxed
the scan-pending column 0 and pushed a second queue entry for it. -/
def spinS4 : AugmentationData :=
  { in_todo := [true, true, false, true, false, false]
    ready := [4, 2, 5]
    is_ready := [false, false, true, false, true, true]
    prev := [1, 1, 2, 4, 4, 5]
    scan := [0]
    dist := [48, 67, 35, 100000017, 35, 35]
    pq := ⟨[0, 3, 0, 1]⟩ }

/-- Search state after the fourth loop iteration: `scan` is empty and the
queue still holds both copies of column 0 at label 48. -/
def spinS5 : AugmentationData :=
  { in_todo := [true, true, false, true, false, false]
    ready := [4, 2, 5, 0]
    is_ready := [true, false, true, false, true, true]
    prev := [1, 1, 2, 4, 4, 5]
    scan := []
    dist := [48, 67, 35, 100000017, 35, 35]
    pq := ⟨[0, 3, 0, 1]⟩ }

/-- The fixpoint of the batch-collection loop: after the first copy of
column 0 is collected (clearing its `in_todo` flag), the surviving copy
sits at the top with `dist = 48 = min`, and the loop body neither pops nor
exits. -/
def spinFix : AugmentationData :=
  { in_todo := [false, true, false, true, false, false]
    ready := [4, 2, 5, 0]
    is_ready := [true, false, true, false, true, true]
    prev := [1, 1, 2, 4, 4, 5]
    scan := [0]
    dist := [48, 67, 35, 100000017, 35, 35]
    pq := ⟨[0, 3, 1]⟩ }

/-! ## Auxiliary lemmas -/

theorem foldl_min_le_init (l : List Int) (a : Int) : l.foldl min a ≤ a := by
  induction l generalizing a with
  | nil => exact le_refl a
  | cons x xs ih => exact le_trans (ih (min a x)) (min_le_left a x)

theorem foldl_min_le_mem (l : List Int) (a x : Int) (hx : x ∈ l) :
    l.foldl min a ≤ x := by
  induction l generalizing a with
  | nil => cases hx
  | cons y ys ih =>
    rcases List.mem_cons.mp hx with h | h
    · subst h
      exact le_trans (foldl_min_le_init ys (min a x)) (min_le_right a x)
    · exact ih (min a y) h

theorem foldl_min_init_or_mem (l : List Int) (a : Int) :
    l.foldl min a = a ∨ l.foldl min a ∈ l := by
  induction l generalizing a with
  | nil => exact Or.inl rfl
  | cons y ys ih =>
    rcases ih (min a y) with h | h
    · rcases le_total a y with hay | hya
      · exact Or.inl (by rw [List.foldl_cons, h, min_eq_left hay])
      · refine Or.inr ?_
        rw [List.foldl_cons, h, min_eq_right hya]
        exact List.mem_cons_self y ys
    · exact Or.inr (List.mem_cons_of_mem y h)

theorem getD_map_range (n j : Nat) (f : Nat → Int) (hj : j < n) :
    ((List.range n).map f).getD j 0 = f j := by
  rw [List.getD_eq_getElem?_getD, List.getElem?_map, List.getElem?_range hj]
  rfl

theorem getD_set_self_of_lt (l : List Int) (i : Nat) (x : Int)
    (hi : i < l.length) : (l.set i x).getD i 0 = x := by
  simp [List.getD_eq_getElem?_getD, List.getElem?_set_self, hi]

/-! ## Claim theorems -/

/-- C8: the Augmentation State reset operation is idempotent — for every
scratch state and every start row, resetting twice in succession leaves the
state identical to resetting once. -/
theorem reset_idempotent (d : AugmentationData) (s : Nat) :
    (d.reset s).reset s = d.reset s := by
  simp [AugmentationData.reset]

/-- C10: `reset` never modifies the `dist` label array; only `in_todo`,
`is_ready`, `prev`, the priority queue, `ready` and `scan` are rewritten
(to all-false, all-false, all-`start`, empty, empty and empty). -/
theorem reset_preserves_dist (d : AugmentationData) (s : Nat) :
    (d.reset s).dist = d.dist ∧
    (d.reset s).in_todo = List.replicate d.in_todo.length false ∧
    (d.reset s).is_ready = List.replicate d.is_ready.length false ∧
    (d.reset s).prev = List.replicate d.prev.length s ∧
    (d.reset s).pq = ⟨[]⟩ ∧
    (d.reset s).ready = [] ∧
    (d.reset s).scan = [] :=
  ⟨rfl, rfl, rfl, rfl, rfl, rfl, rfl⟩

/-- C9: `lap` is deterministic — two runs on the same cost matrix (with the
same fuel bound) return identical `solution` values. -/
theorem lap_deterministic (m : SigmaMatrix) (fuel : Nat)
    (s1 s2 : Option solution) (h1 : s1 = lap m fuel) (h2 : s2 = lap m fuel) :
    s1 = s2 := by
  rw [h1, h2]

/-- Witness for C9: two runs of `lap` on a concrete matrix agree. -/
theorem lap_deterministic_witness :
    (lap detMatrix 100 : Option solution) = lap detMatrix 100 :=
  lap_deterministic detMatrix 100 (lap detMatrix 100) (lap detMatrix 100) rfl rfl

/-- C7: at the start of `delta_lap`, a column assigned in the supplied
solution keeps its supplied dual unchanged, and an unassigned column's dual
is recomputed as the minimum over all rows `i` of `cost(i,j) - u_prior[i]`
(a lower bound on all rows, attained at some row, provided some row's value
does not exceed the `BIG` fold seed). -/
theorem deltaInitV_spec (m : SigmaMatrix) (u v colsol : List Int) (j : Nat)
    (hj : j < m.dimension) :
    (0 ≤ colsol.getD j 0 →
      (deltaInitV m u v colsol).getD j 0 = v.getD j 0) ∧
    (colsol.getD j 0 < 0 →
      (∀ i, i < m.dimension →
        (deltaInitV m u v colsol).getD j 0 ≤ m.cost i j - u.getD i 0) ∧
      ((∃ i, i < m.dimension ∧ m.cost i j - u.getD i 0 ≤ BIG) →
        ∃ i, i < m.dimension ∧
          (deltaInitV m u v colsol).getD j 0 = m.cost i j - u.getD i 0)) := by
  have hval :
      (deltaInitV m u v colsol).getD j 0 =
        if 0 ≤ colsol.getD j 0 then v.getD j 0
        else
          (List.range m.dimension).foldl
            (fun a i2 => min a (m.cost i2 j - u.getD i2 0)) BIG := by
    unfold deltaInitV
    exact getD_map_range m.dimension j _ hj
  have hfold :
      (List.range m.dimension).foldl
          (fun a i2 => min a (m.cost i2 j - u.getD i2 0)) BIG =
        ((List.range m.dimension).map
            (fun i2 => m.cost i2 j - u.getD i2 0)).foldl min BIG :=
    (List.foldl_map _ _ _ _).symm
  constructor
  · intro hpos
    rw [hval, if_pos hpos]
  · intro hneg
    have hcond : ¬ 0 ≤ colsol.getD j 0 := not_le.mpr hneg
    rw [hval, if_neg hcond, hfold]
    constructor
    · intro i hi
      exact foldl_min_le_mem _ _ _
        (List.mem_map.mpr ⟨i, List.mem_range.mpr hi, rfl⟩)
    · rintro ⟨i0, hi0, hle0⟩
      rcases foldl_min_init_or_mem
          ((List.range m.dimension).map
            (fun i2 => m.cost i2 j - u.getD i2 0)) BIG with h | h
      · refine ⟨i0, hi0, ?_⟩
        have hlow :
            ((List.range m.dimension).map
                (fun i2 => m.cost i2 j - u.getD i2 0)).foldl min BIG ≤
              m.cost i0 j - u.getD i0 0 :=
          foldl_min_le_mem _ _ _
            (List.mem_map.mpr ⟨i0, List.mem_range.mpr hi0, rfl⟩)
        refine le_antisymm hlow ?_
        rw [h]
        exact hle0
      · rcases List.mem_map.mp h with ⟨i1, hi1, hgi⟩
        exact ⟨i1, List.mem_range.mp hi1, hgi.symm⟩

/-- Witness for C7: on a concrete `delta_lap` start, the unassigned column 3
receives the minimum over all rows, attained at row 4, and the assigned
column 4 keeps its supplied dual. -/
theorem deltaInitV_spec_witness :
    ((0:Int) ≤ ([1, 2, 3, -1, 4] : List Int).getD 3 0 →
      (deltaInitV deltaBugMatrix deltaBugU deltaBugV deltaBugColsol).getD 3 0 =
        deltaBugV.getD 3 0) ∧
    (([1, 2, 3, -1, 4] : List Int).getD 3 0 < 0 →
      (∀ i, i < deltaBugMatrix.dimension →
        (deltaInitV deltaBugMatrix deltaBugU deltaBugV deltaBugColsol).getD 3 0 ≤
          deltaBugMatrix.cost i 3 - deltaBugU.getD i 0) ∧
      ((∃ i, i < deltaBugMatrix.dimension ∧
          deltaBugMatrix.cost i 3 - deltaBugU.getD i 0 ≤ BIG) →
        ∃ i, i < deltaBugMatrix.dimension ∧
          (deltaInitV deltaBugMatrix deltaBugU deltaBugV deltaBugColsol).getD 3 0 =
            deltaBugMatrix.cost i 3 - deltaBugU.getD i 0)) := by
  have h := deltaInitV_spec deltaBugMatrix deltaBugU deltaBugV deltaBugColsol 3
    (by decide)
  exact h

/-- C5 (amended): in phase 3, whenever the two smallest reduced costs of a
free row are equal (`umin = usubmin`) and the minimum column `j1` is
assigned, the row is reassigned to the alternate column `j2`
unconditionally — whether or not `j2` is free. -/
theorem arrRowStep_tie_swap (m : SigmaMatrix) (i : Nat)
    (v rowsol colsol : List Int) (j20 : Nat)
    (umin : Int) (j1 : Nat) (usubmin : Int) (j2 : Nat)
    (hmp : minPair (m.findRow i) v j20 = some (umin, j1, usubmin, j2))
    (heq : umin = usubmin)
    (hassigned : 0 ≤ colsol.getD j1 0)
    (hi : i < rowsol.length) :
    ∃ st, arrRowStep m i v rowsol colsol j20 = some st ∧
      st.rowsol = rowsol.set i (Int.ofNat j2) ∧
      st.colsol = colsol.set j2 (Int.ofNat i) ∧
      st.v = v ∧
      st.rowsol.getD i 0 = Int.ofNat j2 := by
  subst heq
  have hstep : arrRowStep m i v rowsol colsol j20 =
      some
        { v := v
          rowsol := rowsol.set i (Int.ofNat j2)
          colsol := colsol.set j2 (Int.ofNat i)
          freed :=
            if 0 ≤ colsol.getD j2 0 then some ((colsol.getD j2 0).toNat, false)
            else none
          j2out := j2 } := by
    unfold arrRowStep
    rw [hmp]
    dsimp only
    rw [if_neg (lt_irrefl umin), if_pos hassigned, if_pos hassigned]
  exact ⟨_, hstep, rfl, rfl, rfl, getD_set_self_of_lt rowsol i _ hi⟩

/-- C5 (counterexample to the claim as stated): on `tieSwapMatrix`, free
row 2 has equal minimum and subminimum reduced costs with `j1 = 0` assigned
and the alternate column `j2 = 1` also assigned (not free); the claim says
the row then keeps `j1`, but the code reassigns it to `j2 = 1`. -/
theorem arrRowStep_tie_counterexample :
    minPair (tieSwapMatrix.findRow 2) [0, 0, 0] 0 = some (5, 0, 5, 1) ∧
    (0 : Int) ≤ ([0, 1, -1] : List Int).getD 0 0 ∧
    (0 : Int) ≤ ([0, 1, -1] : List Int).getD 1 0 ∧
    (arrRowStep tieSwapMatrix 2 [0, 0, 0] [0, 1, -1] [0, 1, -1] 0).map
        (fun st => st.rowsol.getD 2 0) = some 1 ∧
    (1 : Int) ≠ 0 := by decide

/-- Witness for C5: the amended tie rule applied on `tieSwapMatrix`. -/
theorem arrRowStep_tie_swap_witness :
    ∃ st, arrRowStep tieSwapMatrix 2 [0, 0, 0] [0, 1, -1] [0, 1, -1] 0 = some st ∧
      st.rowsol = ([0, 1, -1] : List Int).set 2 (Int.ofNat 1) ∧
      st.colsol = ([0, 1, -1] : List Int).set 1 (Int.ofNat 2) ∧
      st.v = [0, 0, 0] ∧
      st.rowsol.getD 2 0 = Int.ofNat 1 :=
  arrRowStep_tie_swap tieSwapMatrix 2 [0, 0, 0] [0, 1, -1] [0, 1, -1] 0
    5 0 5 1 (by decide) rfl (by decide) (by decide)

/-- C2 (violated by the code): on the feasible instance
`coldDualBugMatrix`, `lap` returns a complete matching of stored entries,
but its duals violate reduced-cost non-negativity: the stored entry
`(3, 2)` has `cost(3,2) - u[3] - v[2] = -2 < 0`. -/
theorem lap_dual_infeasible :
    lap coldDualBugMatrix 60 = some coldDualBugSol ∧
    bijectionB 4 coldDualBugSol.rowsol coldDualBugSol.colsol = true ∧
    matchingStoredB coldDualBugMatrix coldDualBugSol.rowsol = true ∧
    coldDualBugSol.cost = bruteMin coldDualBugMatrix ∧
    matchedTightB coldDualBugMatrix coldDualBugSol.u coldDualBugSol.v
      coldDualBugSol.rowsol = true ∧
    coldDualBugMatrix.stored 3 2 = true ∧
    coldDualBugMatrix.cost 3 2 - coldDualBugSol.u.getD 3 0
      - coldDualBugSol.v.getD 2 0 = -2 ∧
    dualFeasibleB coldDualBugMatrix coldDualBugSol.u coldDualBugSol.v = false := by
  decide

/-- C6 (violated by the code): on `deltaMismatchMatrix`, `lap` returns the
optimal solution of cost 183; unassigning rows 1 and 2 (and their columns)
from it and handing the partial solution with its duals to `delta_lap`
yields a complete solution of cost 208 ≠ 183. -/
theorem delta_lap_cost_mismatch :
    lap deltaMismatchMatrix 60 = some deltaMismatchLapSol ∧
    deltaMismatchLapSol.cost = bruteMin deltaMismatchMatrix ∧
    deltaMismatchLapSol.cost = 183 ∧
    (delta_lap deltaMismatchMatrix 60 deltaMismatchLapSol.u deltaMismatchLapSol.v
        [0, -1, -1, 3, 4, 5] [0, -1, -1, 3, 4, 5]).map solution.cost =
      some 208 ∧
    (208 : Int) ≠ 183 := by
  decide

theorem spinBatchFix : ∀ g, batchCollect spinColsol 48 g spinFix = none := by
  intro g
  induction g with
  | zero => rfl
  | succ g ih =>
    have step : batchCollect spinColsol 48 (g + 1) spinFix =
        batchCollect spinColsol 48 g spinFix := rfl
    rw [step]
    exact ih

theorem spinBatch5 : ∀ g, batchCollect spinColsol 48 g spinS5 = none := by
  intro g
  cases g with
  | zero => rfl
  | succ g =>
    have step : batchCollect spinColsol 48 (g + 1) spinS5 =
        batchCollect spinColsol 48 g spinFix := rfl
    rw [step]
    exact spinBatchFix g

theorem spinLoop5 : ∀ f, augmentLoop spinMatrix spinV spinColsol f spinS5 35 = none := by
  intro f
  cases f with
  | zero => rfl
  | succ f =>
    have hbc : batchCollect spinColsol
        (spinS5.dist.getD (stalePop spinS5.in_todo spinS5.dist
          (spinS5.pq.arr.length + 1) spinS5.pq).top 0) (f + 1)
        { spinS5 with
          pq := stalePop spinS5.in_todo spinS5.dist (spinS5.pq.arr.length + 1) spinS5.pq } =
          none := spinBatch5 (f + 1)
    simp only [augmentLoop, hbc, Option.map_none']
    rfl

theorem spinLoop4 : ∀ f, augmentLoop spinMatrix spinV spinColsol f spinS4 35 = none := by
  intro f
  cases f with
  | zero => rfl
  | succ f =>
    have step : augmentLoop spinMatrix spinV spinColsol (f + 1) spinS4 35 =
        augmentLoop spinMatrix spinV spinColsol f spinS5 35 := rfl
    rw [step]
    exact spinLoop5 f

theorem spinLoop3 : ∀ f, augmentLoop spinMatrix spinV spinColsol f spinS3 35 = none := by
  intro f
  cases f with
  | zero => rfl
  | succ f =>
    have step : augmentLoop spinMatrix spinV spinColsol (f + 1) spinS3 35 =
        augmentLoop spinMatrix spinV spinColsol f spinS4 35 := rfl
    rw [step]
    exact spinLoop4 f

theorem spinLoop2 : ∀ f, augmentLoop spinMatrix spinV spinColsol f spinS2 35 = none := by
  intro f
  cases f with
  | zero => rfl
  | succ f =>
    have step : augmentLoop spinMatrix spinV spinColsol (f + 1) spinS2 35 =
        augmentLoop spinMatrix spinV spinColsol f spinS3 35 := rfl
    rw [step]
    exact spinLoop3 f

theorem spinLoop1 : ∀ f,
    augmentLoop spinMatrix spinV spinColsol f (augmentSeed spinMatrix spinD spinV 4) 0 =
      none := by
  intro f
  cases f with
  | zero => rfl
  | succ f =>
    cases f with
    | zero => rfl
    | succ f =>
      have step : augmentLoop spinMatrix spinV spinColsol (f + 2)
          (augmentSeed spinMatrix spinD spinV 4) 0 =
          augmentLoop spinMatrix spinV spinColsol (f + 1) spinS2 35 := rfl
      rw [step]
      exact spinLoop2 (f + 1)

/-- C4 (violated by the code): the feasible instance `spinMatrix` is solved
optimally by `lap`; unassigning rows 1 and 4 and warm-starting `delta_lap`
runs `augment` on free rows 1 then 4, and the call for row 4 never
terminates — it returns `none` for every fuel bound, because the
batch-collection loop reaches a state whose queue top has `dist == min`
but is no longer in the todo set, so the loop body neither pops nor
exits. -/
theorem augment_nonterminating :
    lap spinMatrix 60 = some spinLapSol ∧
    spinLapSol.cost = bruteMin spinMatrix ∧
    bruteMin spinMatrix < BIG ∧
    (List.range 6).filter
      (fun i => ([0, -1, 2, 3, -1, 5] : List Int).getD i 0 < 0) = [1, 4] ∧
    augment spinMatrix 60 (mkAugmentationData 6)
        (deltaInitV spinMatrix spinLapSol.u spinLapSol.v [0, -1, 2, 3, -1, 5])
        [0, -1, 2, 3, -1, 5] [0, -1, 2, 3, -1, 5] 1 =
      some (spinD, spinV, spinRowsol, spinColsol) ∧
    ∀ fuel, augment spinMatrix fuel spinD spinV spinRowsol spinColsol 4 = none := by
  refine ⟨by decide, by decide, by decide, by decide, by decide, ?_⟩
  intro fuel
  have h := spinLoop1 fuel
  simp only [augment, h]

/-- A second dual-corruption mechanism, exercised through `delta_lap`: on
`deltaBugMatrix` with a dual-feasible, tight prior solution, the search
finalizes column 1 twice (it is re-relaxed while pending on `scan`), so
its price is decremented twice in the `ready` update, and the returned
duals violate reduced-cost non-negativity on the stored entry `(3, 2)`. -/
theorem delta_lap_double_price_update :
    dualFeasibleB deltaBugMatrix deltaBugU deltaBugV = true ∧
    matchedTightB deltaBugMatrix deltaBugU deltaBugV deltaBugRowsol = true ∧
    delta_lap deltaBugMatrix 50 deltaBugU deltaBugV deltaBugRowsol deltaBugColsol =
      some deltaBugSol ∧
    deltaBugMatrix.stored 3 2 = true ∧
    deltaBugMatrix.cost 3 2 - deltaBugSol.u.getD 3 0 - deltaBugSol.v.getD 2 0 = -1 ∧
    dualFeasibleB deltaBugMatrix deltaBugSol.u deltaBugSol.v = false := by
  decide
